import Mathlib

/-!
Verification development for the nasToFoam NASTRAN-bulk-data mesh converter
(`src/nasToFoam.C`).  The parsing core (column tokenizer, card reader,
comment tracker, dispatcher/assembler and group resolver) is shallowly
embedded below; the out-of-scope mesh-building collaborator (`polyMesh`
construction, file output) is not modelled.

Modelling conventions, stated once:
* The input stream (`Foam::IFstream`) is a list of characters together with
  the 1-based line counter maintained by `ISstream` (incremented by `get`
  on a newline and by `getLine`, decremented by `putback` of a newline) and
  a `good()` flag.  Reads on a failed stream are no-ops, as for C++
  iostreams; a read at end of input clears the flag.
* `getColumn`'s local `char buff[63]` is uninitialised in C.  The embedding
  represents the buffer by the list of characters actually stored, so a
  read that fails stores nothing; the C program would observe indeterminate
  bytes there.  The out-of-bounds accesses the source can make on this
  buffer are analysed separately (claim C9) via the index dynamics.
* `Foam::readLabel` / `Foam::readFloat` (strtol/strtof plus a full-
  consumption check that tolerates trailing whitespace) are modelled with
  exact integer/rational semantics of the decimal grammar; IEEE rounding of
  `float` is out of scope.
* `Foam::Map<T>` = `HashTable<T,label>`: identity hash on non-negative
  labels, bucket index `hash & (capacity-1)` with initial capacity 128,
  insertion at the head of the bucket chain, load-factor-0.8 doubling, and
  iteration (hence `toc()`) in bucket order.  This is embedded explicitly.
-/

namespace NasToFoam

/-- C `isspace` in the C locale: space, \t, \n, \v, \f, \r (the source also
checks `buff[i] == 13` separately, which is subsumed). -/
def cIsSpace (c : Char) : Bool :=
  c = ' ' || c = '\t' || c = '\n' || c = Char.ofNat 11 || c = Char.ofNat 12 || c = '\r'

/-- Dat file format (`enum struct FORMAT`); the char value is the column
width used as default argument of `getColumn`. -/
inductive FORMAT where
  | FREE
  | SMALL
  | LARGE
deriving DecidableEq, Repr

/-- `char(format)`: 0 for FREE, 8 for SMALL, 16 for LARGE. -/
def FORMAT.width : FORMAT → Nat
  | .FREE => 0
  | .SMALL => 8
  | .LARGE => 16

/-- The input stream: remaining characters, the `ISstream` line counter and
the `good()` flag. -/
structure IFstream where
  chars : List Char
  lineNo : Int
  ok : Bool
deriving DecidableEq, Repr

/-- `ISstream::get(char&)`: one character; a newline bumps the line
counter; at end of input the stream goes bad and nothing is stored. -/
def sGet (s : IFstream) : Option Char × IFstream :=
  if s.ok then
    match s.chars with
    | [] => (none, { s with ok := false })
    | c :: rest =>
      (some c,
        { chars := rest
          lineNo := if c = '\n' then s.lineNo + 1 else s.lineNo
          ok := true })
  else (none, s)

/-- `istream::peek()`: look at the next character; peeking at end of input
sets eofbit, i.e. `good()` becomes false. -/
def sPeek (s : IFstream) : Option Char × IFstream :=
  if s.ok then
    match s.chars with
    | [] => (none, { s with ok := false })
    | c :: _ => (some c, s)
  else (none, s)

/-- `ISstream::getLine`: read up to and including the next newline,
returning the line without it; the line counter is incremented
unconditionally.  Hitting end of input before a newline fails the
stream. -/
def sGetLine (s : IFstream) : String × IFstream :=
  if s.ok then
    let pre := s.chars.takeWhile (fun c => c != '\n')
    let rest := s.chars.dropWhile (fun c => c != '\n')
    match rest with
    | _ :: r => (pre.asString, { chars := r, lineNo := s.lineNo + 1, ok := true })
    | [] => (pre.asString, { chars := [], lineNo := s.lineNo + 1, ok := false })
  else ("", { s with lineNo := s.lineNo + 1 })

/-- `ISstream::putback`: push one character back (newline decrements the
line counter); a no-op on a failed stream. -/
def sPutback (c : Char) (s : IFstream) : IFstream :=
  if s.ok then
    { chars := c :: s.chars
      lineNo := if c = '\n' then s.lineNo - 1 else s.lineNo
      ok := true }
  else s

/-- `ISstream::readRaw(buf, n)`: consume n raw bytes without touching the
line counter; fewer than n available fails the stream. -/
def sReadRaw (n : Nat) (s : IFstream) : IFstream :=
  if s.ok then
    if n ≤ s.chars.length then { s with chars := s.chars.drop n }
    else { s with chars := [], ok := false }
  else s

/--
The read loop of `getColumn` (src lines 113-136):
`while (nRead++ < size && i < size)` with one `is.get` per iteration
(since `i ≤ nRead` always, the `i < size` conjunct is redundant and the
fuel is exactly `size`).  The accumulator is the list of characters stored
in `buff[0..i-1]`: a newline is stored and terminates, a comma terminates
without being stored, whitespace/carriage-return is consumed but not
stored, anything else is stored.
-/
def gcLoop : Nat → List Char → IFstream → List Char × IFstream
  | 0, acc, s => (acc, s)
  | n + 1, acc, s =>
    match sGet s with
    | (none, s1) => gcLoop n acc s1
    | (some c, s1) =>
      if c = '\n' then (acc ++ [c], s1)
      else if c = ',' then (acc, s1)
      else if cIsSpace c then gcLoop n acc s1
      else gcLoop n (acc ++ [c]) s1

/-- The free-format flag-column skip inside `getColumn`
(src line 148): `while (is.get(c) && c != ',') {}` — consume up to and
including the first comma, or until the stream fails.  The fuel
`s.chars.length + 1` makes the loop run exactly until the failing read. -/
def skipToComma : Nat → IFstream → IFstream
  | 0, s => s
  | n + 1, s =>
    match sGet s with
    | (none, s1) => s1
    | (some c, s1) => if c = ',' then s1 else skipToComma n s1

/--
Tail of `getColumn` (src lines 159-168): in free format a trailing newline
that landed in the buffer is removed from the returned field and pushed
back onto the stream; otherwise the buffer content is returned as is (note
that in the fixed formats a terminating newline *stays in the returned
string*).  The `buff[i-1]` read performed here with `i = 0` is an
out-of-bounds access in C (claim C9); the embedding treats the garbage
byte as not-a-newline.
-/
def gcTail (fmt : FORMAT) (acc : List Char) (s : IFstream) : String × IFstream :=
  if fmt = FORMAT.FREE ∧ acc.getLast? = some '\n' then
    (acc.dropLast.asString, sPutback '\n' s)
  else (acc.asString, s)

/--
`getColumn(is, size)` (src lines 104-169).  `rawSize` is the argument
(0 denotes free format and is replaced by 63).  After the read loop, if the
field begins with `+`, ends with a newline, and the next byte is `+` or
`*`, the first column of the continuation line is discarded (one
comma-delimited token in free format, 8 raw bytes otherwise) and the read
restarts on the new line.  The fuel bounds the number of continuation
hops; every hop consumes input, so any fuel beyond the stream length is
equivalent.
-/
def getColumn (fmt : FORMAT) : Nat → Nat → IFstream → String × IFstream
  | 0, _, s => ("", s)
  | f + 1, rawSize, s =>
    let size := if rawSize = 0 then 63 else rawSize
    let r := gcLoop size [] s
    if r.1.head? = some '+' ∧ r.1.getLast? = some '\n' then
      let p := sPeek r.2
      if p.1 = some '+' ∨ p.1 = some '*' then
        let s2 :=
          if fmt = FORMAT.FREE then skipToComma (p.2.chars.length + 1) p.2
          else sReadRaw 8 p.2
        getColumn fmt f rawSize s2
      else gcTail fmt r.1 p.2
    else gcTail fmt r.1 r.2

/-- Strip carriage-return characters from a line
(`line.erase(std::remove(..., 13), ...)`, src lines 94-95). -/
def stripCR (line : String) : String :=
  (line.toList.filter (fun c => c != '\r')).asString

/-- `finishEntry` (src lines 86-101): skip the rest of the current line,
and further whole lines while the (CR-stripped) line ends with `+`.
The fuel bounds the number of lines; each iteration reads one line. -/
def finishEntry : Nat → IFstream → IFstream
  | 0, s => s
  | n + 1, s =>
    let r := sGetLine s
    if (stripCR r.1).toList.getLast? = some '+' then finishEntry n r.2 else r.2

/-- The comment tracker's state: the globals `commentBuffer` and
`commentLine` (src lines 46-47); both are zero-initialised
(empty word, line 0). -/
structure CommentSt where
  buf : String
  line : Int
deriving DecidableEq, Repr

/-- The substring after the last space of a line
(`line.substr(line.find_last_of(' ') + 1)`). -/
def afterLastSpace (line : String) : String :=
  ((line.toList.reverse.takeWhile (fun c => c != ' ')).reverse).asString

/-- `processCommentedLine` (src lines 68-79): consume the comment line; if
it contains a space, record the substring after the last space together
with the stream's line number *after* the line was consumed (i.e. the
number of the following line). -/
def processCommentedLine (cs : CommentSt) (s : IFstream) : CommentSt × IFstream :=
  let r := sGetLine s
  if r.1.toList.contains ' ' then (⟨afterLastSpace r.1, r.2.lineNo⟩, r.2)
  else (cs, r.2)

/-- The comment-skipping loop of `getEntry` (src line 176):
`while (is.good() && is.peek() == '$') processCommentedLine(is)`. -/
def skipComments : Nat → CommentSt → IFstream → CommentSt × IFstream
  | 0, cs, s => (cs, s)
  | n + 1, cs, s =>
    if s.ok then
      let p := sPeek s
      if p.1 = some '$' then
        let r := processCommentedLine cs p.2
        skipComments n r.1 r.2
      else (cs, p.2)
    else (cs, s)

/-- `getEntry` (src lines 171-193): finish the current (multi)line record,
process pending `$`-comment lines, read the keyword column (8 characters in
the fixed formats, free-delimited otherwise) and strip one trailing `*`
(the large-field/multiline marker). -/
def getEntry (fmt : FORMAT) (fuel : Nat) (cs : CommentSt) (s : IFstream) :
    String × CommentSt × IFstream :=
  let s1 := finishEntry fuel s
  let r := skipComments fuel cs s1
  let c :=
    match fmt with
    | .FREE => getColumn fmt fuel 0 r.2
    | _ => getColumn fmt fuel 8 r.2
  let e :=
    if c.1.toList.getLast? = some '*' then c.1.toList.dropLast.asString else c.1
  (e, r.1, c.2)

/-- Decimal digits to a natural number. -/
def digitsToNat (l : List Char) : Nat :=
  l.foldl (fun a c => 10 * a + (c.toNat - '0'.toNat)) 0

/-- `Foam::readLabel` on a field string: `strtol` base 10 (leading
whitespace, optional sign, at least one digit) followed by the
`checkConversion` full-consumption test that tolerates only trailing
whitespace.  `none` is the fatal `MalformedNumber` outcome.  Integer
overflow of the 32-bit label is not modelled. -/
def parseLabel (str : String) : Option Int :=
  let l0 := str.toList.dropWhile cIsSpace
  let sign : Int := if l0.head? = some '-' then -1 else 1
  let l1 := if l0.head? = some '-' ∨ l0.head? = some '+' then l0.tail else l0
  let ds := l1.takeWhile Char.isDigit
  let rest := l1.dropWhile Char.isDigit
  if ds.isEmpty then none
  else if rest.all cIsSpace then some (sign * (digitsToNat ds : Int)) else none

/-- The exact rational value `sign * mant * 10^(ex - fracLen)` of a decimal
scientific literal with integer-and-fraction digit string `mant`,
`fracLen` fraction digits and exponent `ex`. -/
def decValue (sign : Int) (mant : Nat) (fracLen : Nat) (ex : Int) : Rat :=
  let e : Int := ex - (fracLen : Int)
  if 0 ≤ e then ((sign * (mant : Int) * (10 : Int) ^ e.toNat : Int) : Rat)
  else mkRat (sign * (mant : Int)) ((10 : Nat) ^ (-e).toNat)

/-- `Foam::readFloat` on a field string, with exact rational semantics of
the decimal grammar accepted by `strtof` (leading whitespace, optional
sign, digits with optional point, optional `e`/`E` exponent — which is
only consumed when followed by at least one digit) and the trailing-
whitespace-only `checkConversion` test.  `none` is the fatal
`MalformedNumber` outcome; IEEE rounding, hex floats, inf and nan are not
modelled. -/
def parseFloatQ (str : String) : Option Rat :=
  let l0 := str.toList.dropWhile cIsSpace
  let sign : Int := if l0.head? = some '-' then -1 else 1
  let l1 := if l0.head? = some '-' ∨ l0.head? = some '+' then l0.tail else l0
  let ip := l1.takeWhile Char.isDigit
  let r1 := l1.dropWhile Char.isDigit
  let hasDot := r1.head? = some '.'
  let fp := if hasDot then r1.tail.takeWhile Char.isDigit else []
  let r2 := if hasDot then r1.tail.dropWhile Char.isDigit else r1
  if ip.isEmpty ∧ fp.isEmpty then none
  else
    let mant := digitsToNat (ip ++ fp)
    let eTry : Int × List Char :=
      if r2.head? = some 'e' ∨ r2.head? = some 'E' then
        let r3 := r2.tail
        let es : Int := if r3.head? = some '-' then -1 else 1
        let r4 := if r3.head? = some '-' ∨ r3.head? = some '+' then r3.tail else r3
        let eds := r4.takeWhile Char.isDigit
        if eds.isEmpty then (0, r2)
        else (es * (digitsToNat eds : Int), r4.dropWhile Char.isDigit)
      else (0, r2)
    if eTry.2.all cIsSpace then some (decValue sign mant fp.length eTry.1)
    else none

/-- `std::string::find(c, start)` yielding the label-typed result of the
source (`-1` when absent, the absolute index otherwise). -/
def findCharFrom (l : List Char) (c : Char) (start : Nat) : Int :=
  match (l.drop start).findIdx? (fun x => x == c) with
  | some i => ((start + i : Nat) : Int)
  | none => -1

/-- The compacted-exponent repair of `getScalar` (src lines 208-213): look
for the first `+` from offset 1; only if there is none, for the first `-`
from offset 1; if found and not immediately preceded by `e`/`E`, splice an
`e` before it.  (The found index is always ≥ 1, so `data[id-1]` is in
bounds.) -/
def fixExponent (data : String) : String :=
  let l := data.toList
  let id0 := findCharFrom l '+' 1
  let id1 := if id0 = -1 then findCharFrom l '-' 1 else id0
  if id1 ≠ -1 ∧ l.getD (id1.toNat - 1) '?' ≠ 'e' ∧ l.getD (id1.toNat - 1) '?' ≠ 'E' then
    ((l.take id1.toNat) ++ 'e' :: l.drop id1.toNat).asString
  else data

/-- Fatal outcomes of the converter.  `mapKeyNotFound` is
`HashTable::at` / non-const `operator[]` on a missing key; `oobAccess`
marks an out-of-bounds array access that is undefined behaviour in the C++
source (it is not a diagnostic the program itself produces); `outOfFuel`
marks exhaustion of the embedding's loop fuel and is never reached in the
theorems below. -/
inductive FatalErr where
  | malformedNumber
  | duplicateProperty (k : Int)
  | unknownKeyword (kw : String)
  | mapKeyNotFound
  | formatMarkerMissing
  | oobAccess
  | outOfFuel
deriving DecidableEq, Repr

/-- `getLabel` (src lines 196-199): read the next column at the format's
default width and parse it as a label. -/
def getLabel (fmt : FORMAT) (fuel : Nat) (s : IFstream) :
    Except FatalErr (Int × IFstream) :=
  let c := getColumn fmt fuel fmt.width s
  match parseLabel c.1 with
  | some v => .ok (v, c.2)
  | none => .error .malformedNumber

/-- `getScalar` (src lines 204-216): read the next column, repair a
compacted exponent, and parse the result as a float. -/
def getScalar (fmt : FORMAT) (fuel : Nat) (s : IFstream) :
    Except FatalErr (Rat × IFstream) :=
  let c := getColumn fmt fuel fmt.width s
  match parseFloatQ (fixExponent c.1) with
  | some v => .ok (v, c.2)
  | none => .error .malformedNumber

/-- Keyword and name constants of the source. -/
def bulkStr : String := "BEGIN BULK"

def kwGRID : String := "GRID"

def kwCTETRA : String := "CTETRA"

def kwCPYRAM : String := "CPYRAM"

def kwCHEXA : String := "CHEXA"

def kwCTRIA3 : String := "CTRIA3"

def kwCQUAD4 : String := "CQUAD4"

def kwPSOLID : String := "PSOLID"

def kwPSHELL : String := "PSHELL"

def kwENDDATA : String := "ENDDATA"

def patchPre : String := "patch_"

def zonePre : String := "cellZone_"

def emptyStr : String := ""

/-- `Foam::Map<T>` = `HashTable<T, label>`: the bucket chains themselves
(`chains[b]` is the linked list of bucket `b`, newest entry first), the
current capacity (initially 128, always a power of two) and the entry
count. -/
structure FMap (α : Type) where
  cap : Nat
  chains : List (List (Int × α))
  sz : Nat
deriving DecidableEq, Repr

/-- A default-constructed `Map`: capacity 128, all buckets empty. -/
def fmEmpty {α : Type} : FMap α := ⟨128, List.replicate 128 [], 0⟩

/-- `static_cast<unsigned>(label)`: the identity on non-negative labels,
two's complement on negative ones. -/
def labelHashU (k : Int) : Nat :=
  if 0 ≤ k then k.toNat else (2 ^ 32 + k).toNat

/-- `hashKeyIndex`: hash value masked to the (power of two) capacity. -/
def bucketOf (cap : Nat) (k : Int) : Nat := labelHashU k % cap

/-- The bucket chain a key hashes to. -/
def chainAt {α : Type} (m : FMap α) (k : Int) : List (Int × α) :=
  m.chains.getD (bucketOf m.cap k) []

/-- `HashTable::find` (hence `found`, `at`, `operator[]`): search the
key's bucket chain. -/
def fmFind {α : Type} (m : FMap α) (k : Int) : Option α :=
  ((chainAt m k).find? (fun e => e.1 == k)).map (fun e => e.2)

/-- `HashTable::found`. -/
def fmFound {α : Type} (m : FMap α) (k : Int) : Bool := (fmFind m k).isSome

/-- All entries in iteration order: buckets in ascending index order, each
chain newest-first.  `toc()` lists the keys in exactly this order. -/
def catLists {α : Type} : List (List α) → List α
  | [] => []
  | l :: ls => l ++ catLists ls

/-- Entries of the table in iteration order. -/
def fmIterList {α : Type} (m : FMap α) : List (Int × α) := catLists m.chains

/-- `HashTable::toc()`: keys in iteration order. -/
def fmToc {α : Type} (m : FMap α) : List Int := (fmIterList m).map Prod.fst

/-- `HashTable::resize`: rebuild the chains at a new capacity, relocating
the nodes in iteration order and prepending each into its new bucket. -/
def rehashInto {α : Type} (cap : Nat) (entries : List (Int × α)) :
    List (List (Int × α)) :=
  entries.foldl
    (fun ch e =>
      ch.set (bucketOf cap e.1) (e :: ch.getD (bucketOf cap e.1) []))
    (List.replicate cap [])

/-- `HashTable::insert`: a no-op when the key exists; otherwise prepend the
new node to its bucket chain and double the capacity when the load factor
exceeds 0.8 (`double(size_)/capacity_ > 0.8`, i.e. `10*size > 8*cap`). -/
def fmInsert {α : Type} (m : FMap α) (k : Int) (v : α) : FMap α :=
  if fmFound m k then m
  else
    let b := bucketOf m.cap k
    let m1 : FMap α := ⟨m.cap, m.chains.set b ((k, v) :: m.chains.getD b []), m.sz + 1⟩
    if 10 * m1.sz > 8 * m1.cap then
      ⟨2 * m1.cap, rehashInto (2 * m1.cap) (fmIterList m1), m1.sz⟩
    else m1

/-- In-place mutation `m.at(k).append(...)` etc.: rewrite the value stored
under an existing key (the chain structure is unchanged). -/
def fmUpdate {α : Type} (m : FMap α) (k : Int) (f : α → α) : FMap α :=
  let b := bucketOf m.cap k
  ⟨m.cap,
    m.chains.set b
      ((m.chains.getD b []).map (fun e => if e.1 = k then (k, f e.2) else e)),
    m.sz⟩

/-- A point: three exact coordinates. -/
abbrev Pt := Rat × Rat × Rat

/-- The mutable state of `main`'s read loop: the stream, the comment
tracker, the current entry keyword, and the entity containers
(src lines 380-394).  A cell is its resolved vertex-index list (the
`cellShape` canonicalisation of non-degenerate shapes keeps the vertex
list; it is not remodelled), a face likewise. -/
structure MState where
  s : IFstream
  cs : CommentSt
  entry : String
  points : List Pt
  pointIDs : List Int
  cells : List (List Int)
  cellPropIDs : FMap (List Int)
  patches : FMap (List (List Int))
  propNames : FMap String
deriving DecidableEq, Repr

/-- `pointIDs` resize-and-assign of `readPoints` (src lines 234-238):
grow with `-1` fill when the raw ID is beyond the current size, then store
the next 0-based point index at the raw ID. -/
def setPointID (l : List Int) (i : Nat) (v : Int) : List Int :=
  let l1 := if l.length ≤ i then l ++ List.replicate (i + 1 - l.length) (-1) else l
  l1.set i v

/-- `pointIDs[id]` (`UList::operator[]`, unchecked in release builds):
in bounds, the stored value (the `-1` sentinel for never-declared IDs);
out of bounds, undefined behaviour, marked `oobAccess`. -/
def ulGet (l : List Int) (i : Int) : Except FatalErr Int :=
  if 0 ≤ i ∧ i.toNat < l.length then .ok (l.getD i.toNat 0) else .error .oobAccess

/-- `readPoints` (src lines 221-250): repeat { read raw point ID, map it to
the next 0-based index, skip the CP column, read three coordinates, append
the point } while the next entry keyword is still GRID. -/
def readPoints (fmt : FORMAT) (fuel : Nat) : Nat → MState → Except FatalErr MState
  | 0, _ => .error .outOfFuel
  | n + 1, st =>
    match getLabel fmt fuel st.s with
    | .error e => .error e
    | .ok (pointi, s1) =>
      if pointi < 0 then .error .oobAccess
      else
        let pointIDs1 := setPointID st.pointIDs pointi.toNat (st.points.length : Int)
        let c := getColumn fmt fuel fmt.width s1
        match getScalar fmt fuel c.2 with
        | .error e => .error e
        | .ok (x, s2) =>
          match getScalar fmt fuel s2 with
          | .error e => .error e
          | .ok (y, s3) =>
            match getScalar fmt fuel s3 with
            | .error e => .error e
            | .ok (z, s4) =>
              let r := getEntry fmt fuel st.cs s4
              let st1 : MState :=
                { st with
                  s := r.2.2
                  cs := r.2.1
                  entry := r.1
                  points := st.points ++ [(x, y, z)]
                  pointIDs := pointIDs1 }
              if st1.entry = kwGRID then readPoints fmt fuel n st1 else .ok st1

/-- Read `n` vertex references, translating each through `pointIDs`
(src lines 277-281 / 307-311). -/
def readVerts (fmt : FORMAT) (fuel : Nat) (pointIDs : List Int) :
    Nat → List Int → IFstream → Except FatalErr (List Int × IFstream)
  | 0, acc, s => .ok (acc, s)
  | n + 1, acc, s =>
    match getLabel fmt fuel s with
    | .error e => .error e
    | .ok (vid, s1) =>
      match ulGet pointIDs vid with
      | .error e => .error e
      | .ok v => readVerts fmt fuel pointIDs n (acc ++ [v]) s1

/-- `readCell<TYPE>` (src lines 253-285) for a cell of `nVerts` vertices:
repeat { skip the element-ID column, read the property ID, record the next
cell index in that property's group, read the vertices, append the cell }
while the next entry keyword equals `name`. -/
def readCell (fmt : FORMAT) (fuel : Nat) (name : String) (nVerts : Nat) :
    Nat → MState → Except FatalErr MState
  | 0, _ => .error .outOfFuel
  | n + 1, st =>
    let c := getColumn fmt fuel fmt.width st.s
    match getLabel fmt fuel c.2 with
    | .error e => .error e
    | .ok (cellPropID, s1) =>
      let m1 :=
        if fmFound st.cellPropIDs cellPropID then st.cellPropIDs
        else fmInsert st.cellPropIDs cellPropID []
      let m2 := fmUpdate m1 cellPropID (fun lst => lst ++ [(st.cells.length : Int)])
      match readVerts fmt fuel st.pointIDs nVerts [] s1 with
      | .error e => .error e
      | .ok (verts, s2) =>
        let r := getEntry fmt fuel st.cs s2
        let st1 : MState :=
          { st with
            s := r.2.2
            cs := r.2.1
            entry := r.1
            cells := st.cells ++ [verts]
            cellPropIDs := m2 }
        if st1.entry = name then readCell fmt fuel name nVerts n st1 else .ok st1

/-- `readFaces<nPoints>` (src lines 288-315): as `readCell` but appending
the face's vertex list into the property's face group. -/
def readFaces (fmt : FORMAT) (fuel : Nat) (name : String) (nVerts : Nat) :
    Nat → MState → Except FatalErr MState
  | 0, _ => .error .outOfFuel
  | n + 1, st =>
    let c := getColumn fmt fuel fmt.width st.s
    match getLabel fmt fuel c.2 with
    | .error e => .error e
    | .ok (patchI, s1) =>
      let m1 :=
        if fmFound st.patches patchI then st.patches
        else fmInsert st.patches patchI []
      match readVerts fmt fuel st.pointIDs nVerts [] s1 with
      | .error e => .error e
      | .ok (verts, s2) =>
        let m2 := fmUpdate m1 patchI (fun lst => lst ++ [verts])
        let r := getEntry fmt fuel st.cs s2
        let st1 : MState :=
          { st with
            s := r.2.2
            cs := r.2.1
            entry := r.1
            patches := m2 }
        if st1.entry = name then readFaces fmt fuel name nVerts n st1 else .ok st1

/-- The PSOLID/PSHELL branch of `main` (src lines 434-453), shared by both
card types over the single `propNames` map: read the property ID, fatal if
already declared; record the tracked comment name exactly when the
recorded comment line number equals the stream's current line number and
naming is enabled, else record the empty name; then advance to the next
entry. -/
def handleProperty (fmt : FORMAT) (fuel : Nat) (defaultNames : Bool) (st : MState) :
    Except FatalErr MState :=
  match getLabel fmt fuel st.s with
  | .error e => .error e
  | .ok (propI, s1) =>
    if fmFound st.propNames propI then .error (.duplicateProperty propI)
    else
      let nm :=
        if st.cs.line = s1.lineNo ∧ defaultNames = false then st.cs.buf else emptyStr
      let r := getEntry fmt fuel st.cs s1
      .ok
        { st with
          s := r.2.2
          cs := r.2.1
          entry := r.1
          propNames := fmInsert st.propNames propI nm }

/-- The dispatch loop of `main` (src lines 400-467): while the stream is
good, branch on the current entry keyword; ENDDATA breaks, an unrecognised
keyword is fatal. -/
def mainLoop (fmt : FORMAT) (fuel : Nat) (defaultNames : Bool) :
    Nat → MState → Except FatalErr MState
  | 0, _ => .error .outOfFuel
  | n + 1, st =>
    if st.s.ok = false then .ok st
    else if st.entry = kwGRID then
      match readPoints fmt fuel fuel st with
      | .error e => .error e
      | .ok st1 => mainLoop fmt fuel defaultNames n st1
    else if st.entry = kwCTETRA then
      match readCell fmt fuel kwCTETRA 4 fuel st with
      | .error e => .error e
      | .ok st1 => mainLoop fmt fuel defaultNames n st1
    else if st.entry = kwCPYRAM then
      match readCell fmt fuel kwCPYRAM 5 fuel st with
      | .error e => .error e
      | .ok st1 => mainLoop fmt fuel defaultNames n st1
    else if st.entry = kwCHEXA then
      match readCell fmt fuel kwCHEXA 8 fuel st with
      | .error e => .error e
      | .ok st1 => mainLoop fmt fuel defaultNames n st1
    else if st.entry = kwCTRIA3 then
      match readFaces fmt fuel kwCTRIA3 3 fuel st with
      | .error e => .error e
      | .ok st1 => mainLoop fmt fuel defaultNames n st1
    else if st.entry = kwCQUAD4 then
      match readFaces fmt fuel kwCQUAD4 4 fuel st with
      | .error e => .error e
      | .ok st1 => mainLoop fmt fuel defaultNames n st1
    else if st.entry = kwPSOLID ∨ st.entry = kwPSHELL then
      match handleProperty fmt fuel defaultNames st with
      | .error e => .error e
      | .ok st1 => mainLoop fmt fuel defaultNames n st1
    else if st.entry = kwENDDATA then .ok st
    else .error (.unknownKeyword st.entry)

/-- `findBulk` (src lines 54-63): read lines while the stream is good
until one starts with `BEGIN BULK`; `none` if it is never found. -/
def findBulk : Nat → IFstream → Option IFstream
  | 0, _ => none
  | n + 1, s =>
    if s.ok then
      let r := sGetLine s
      if bulkStr.toList.isPrefixOf r.1.toList then some r.2 else findBulk n r.2
    else none

/-- `findBulk` plus the initial state and initial `getEntry` of `main`
(src lines 372-397) followed by the dispatch loop: everything before the
group-resolution post-pass.  Note that the initial `getEntry`'s
`finishEntry` unconditionally discards the first line after the
`BEGIN BULK` line, faithfully to the source. -/
def runAssemble (fuel : Nat) (fmt : FORMAT) (defaultNames : Bool)
    (input : List Char) : Except FatalErr MState :=
  let s0 : IFstream := ⟨input, 1, true⟩
  match findBulk fuel s0 with
  | none => .error .formatMarkerMissing
  | some s1 =>
    let r := getEntry fmt fuel ⟨emptyStr, 0⟩ s1
    mainLoop fmt fuel defaultNames fuel
      { s := r.2.2
        cs := r.2.1
        entry := r.1
        points := []
        pointIDs := []
        cells := []
        cellPropIDs := fmEmpty
        patches := fmEmpty
        propNames := fmEmpty }

/-- The patch-resolution fold of `main` (src lines 469-488), iterating the
keys in `toc()` order with the accumulated `(patchFaces, patchNames,
unnamedPatchN)`: look up the property's name (`propNames.at`, fatal when
absent), then — only when the face group is non-empty — emit the group,
named by the tracked name when non-empty and by `patch_N` with the
unnamed counter otherwise. -/
def resolveGo (patches : FMap (List (List Int))) (propNames : FMap String) :
    List Int → List (List (List Int)) × List String × Nat →
    Except FatalErr (List (List (List Int)) × List String × Nat)
  | [], acc => .ok acc
  | k :: rest, acc =>
    match fmFind propNames k with
    | none => .error .mapKeyNotFound
    | some nm =>
      match fmFind patches k with
      | none => .error .mapKeyNotFound
      | some faces =>
        if faces.length ≠ 0 then
          if nm = emptyStr then
            resolveGo patches propNames rest
              (acc.1 ++ [faces], acc.2.1 ++ [patchPre ++ toString acc.2.2], acc.2.2 + 1)
          else
            resolveGo patches propNames rest
              (acc.1 ++ [faces], acc.2.1 ++ [nm], acc.2.2)
        else resolveGo patches propNames rest acc

/-- Patch resolution over the whole `patches` map. -/
def resolvePatches (patches : FMap (List (List Int))) (propNames : FMap String) :
    Except FatalErr (List (List (List Int)) × List String) :=
  match resolveGo patches propNames (fmToc patches) ([], [], 0) with
  | .error e => .error e
  | .ok acc => .ok (acc.1, acc.2.1)

/-- The cell-zone resolution fold (src lines 516-532): every cell group is
emitted (no empty-group skip); the name is the tracked one when non-empty,
else `cellZone_N` with the unnamed counter. -/
def resolveZonesGo (cellPropIDs : FMap (List Int)) (propNames : FMap String) :
    List Int → List (String × List Int) × Nat →
    Except FatalErr (List (String × List Int) × Nat)
  | [], acc => .ok acc
  | k :: rest, acc =>
    match fmFind propNames k with
    | none => .error .mapKeyNotFound
    | some nm =>
      match fmFind cellPropIDs k with
      | none => .error .mapKeyNotFound
      | some cellIdxs =>
        if nm = emptyStr then
          resolveZonesGo cellPropIDs propNames rest
            (acc.1 ++ [(zonePre ++ toString acc.2, cellIdxs)], acc.2 + 1)
        else
          resolveZonesGo cellPropIDs propNames rest (acc.1 ++ [(nm, cellIdxs)], acc.2)

/-- Cell-zone resolution, guarded as in the source by
`if (cellPropIDs.size())`. -/
def resolveZones (cellPropIDs : FMap (List Int)) (propNames : FMap String) :
    Except FatalErr (List (String × List Int)) :=
  if cellPropIDs.sz = 0 then .ok []
  else
    match resolveZonesGo cellPropIDs propNames (fmToc cellPropIDs) ([], 0) with
    | .error e => .error e
    | .ok acc => .ok acc.1

/-- What the core hands to the out-of-scope mesh builder: the point
sequence, the cell vertex lists, the ordered patch face groups with their
names, and the named cell zones. -/
structure MeshOut where
  points : List Pt
  cells : List (List Int)
  patchFaces : List (List (List Int))
  patchNames : List String
  zones : List (String × List Int)
deriving DecidableEq, Repr

/-- The whole core: assembly followed by the group-resolution post-pass
(the `polyMesh` construction between the two resolutions is out of
scope). -/
def runMain (fuel : Nat) (fmt : FORMAT) (defaultNames : Bool)
    (input : List Char) : Except FatalErr MeshOut :=
  match runAssemble fuel fmt defaultNames input with
  | .error e => .error e
  | .ok st =>
    match resolvePatches st.patches st.propNames with
    | .error e => .error e
    | .ok pr =>
      match resolveZones st.cellPropIDs st.propNames with
      | .error e => .error e
      | .ok zs => .ok ⟨st.points, st.cells, pr.1, pr.2, zs⟩

end NasToFoam

deriving instance DecidableEq for Except

namespace NasToFoam

/-! ### Spec-side definitions

These two definitions follow the *spec's words* rather than the source and
exist only to be compared against the source-derived definitions. -/

/-- Spec-side (claim C4): "consume exactly up to `maxWidth` raw characters,
skipping (not counting toward the width budget) embedded whitespace or
carriage-return bytes, terminating early on newline" — read as: collect up
to `maxWidth` non-whitespace content characters, whitespace not counting
against the budget, stopping at a newline. -/
def specColGo : Nat → List Char → List Char
  | _, [] => []
  | 0, _ => []
  | b + 1, c :: rest =>
    if c = '\n' then []
    else if cIsSpace c then specColGo (b + 1) rest
    else c :: specColGo b rest

/-- Spec-side field extraction for the fixed formats per claim C4's
words. -/
def specColumnFixed (maxW : Nat) (chars : List Char) : String :=
  (specColGo maxW chars).asString

/-- Spec-side (claim C6): splice an `e` before the *first* `+` or `-`
found scanning from offset 1 whose preceding character is not `e`/`E`. -/
def specFixExponent (data : String) : String :=
  let l := data.toList
  match ((List.range l.length).drop 1).find? (fun i =>
      (l.getD i '?' == '+' || l.getD i '?' == '-') &&
      l.getD (i - 1) '?' != 'e' && l.getD (i - 1) '?' != 'E') with
  | some i => ((l.take i) ++ 'e' :: l.drop i).asString
  | none => data

/-- Insert into a ≤-sorted list of keys, keeping it sorted. -/
def sortedInsert (x : Int) : List Int → List Int
  | [] => [x]
  | y :: ys => if x ≤ y then x :: y :: ys else y :: sortedInsert x ys

/-- Ascending insertion sort of a key list. -/
def sortKeysAsc (l : List Int) : List Int := l.foldr sortedInsert []

/-- Spec-side (claim C3) resolution fold: identical group body (name
lookup, empty-group skip, `patch_N` fallback over unnamed groups only) but
iterating in ascending property-ID order as the claim demands. -/
def specResolveGo (patches : FMap (List (List Int))) (propNames : FMap String) :
    List Int → List (List (List Int)) × List String × Nat →
    Except FatalErr (List (List (List Int)) × List String × Nat)
  | [], acc => .ok acc
  | k :: rest, acc =>
    match fmFind propNames k with
    | none => .error .mapKeyNotFound
    | some nm =>
      match fmFind patches k with
      | none => .error .mapKeyNotFound
      | some faces =>
        if faces.length ≠ 0 then
          if nm = emptyStr then
            specResolveGo patches propNames rest
              (acc.1 ++ [faces], acc.2.1 ++ [patchPre ++ toString acc.2.2], acc.2.2 + 1)
          else
            specResolveGo patches propNames rest
              (acc.1 ++ [faces], acc.2.1 ++ [nm], acc.2.2)
        else specResolveGo patches propNames rest acc

/-- Spec-side (claim C3) patch resolution: the groups in *ascending
property-ID order*. -/
def specResolvePatches (patches : FMap (List (List Int))) (propNames : FMap String) :
    Except FatalErr (List (List (List Int)) × List String) :=
  match specResolveGo patches propNames (sortKeysAsc (fmToc patches)) ([], [], 0) with
  | .error e => .error e
  | .ok acc => .ok (acc.1, acc.2.1)

/-- Spec-side (claim C3) cell-zone resolution fold: identical group body
(name lookup, `cellZone_N` fallback over unnamed groups only, no
empty-group skip) but iterating in ascending property-ID order as the
claim demands. -/
def specResolveZonesGo (cellPropIDs : FMap (List Int)) (propNames : FMap String) :
    List Int → List (String × List Int) × Nat →
    Except FatalErr (List (String × List Int) × Nat)
  | [], acc => .ok acc
  | k :: rest, acc =>
    match fmFind propNames k with
    | none => .error .mapKeyNotFound
    | some nm =>
      match fmFind cellPropIDs k with
      | none => .error .mapKeyNotFound
      | some cellIdxs =>
        if nm = emptyStr then
          specResolveZonesGo cellPropIDs propNames rest
            (acc.1 ++ [(zonePre ++ toString acc.2, cellIdxs)], acc.2 + 1)
        else
          specResolveZonesGo cellPropIDs propNames rest (acc.1 ++ [(nm, cellIdxs)], acc.2)

/-- Spec-side (claim C3) cell-zone resolution: the groups in *ascending
property-ID order*. -/
def specResolveZones (cellPropIDs : FMap (List Int)) (propNames : FMap String) :
    Except FatalErr (List (String × List Int)) :=
  match specResolveZonesGo cellPropIDs propNames (sortKeysAsc (fmToc cellPropIDs)) ([], 0) with
  | .error e => .error e
  | .ok acc => .ok acc.1

/-- A map built by a sequence of `insert` calls, first entry first. -/
def fmFromList {α : Type} (l : List (Int × α)) : FMap α :=
  l.foldl (fun m e => fmInsert m e.1 e.2) fmEmpty

/-! ### Concrete inputs used by the claims -/

/-- Claim C7's scenario: a PSHELL directly preceded by the comment
`$ Property 1 inlet`, three GRID points and one CTRIA3 face using the
property.  (The blank line after `BEGIN BULK` is consumed by the initial
`getEntry`'s `finishEntry`, faithfully to the source.) -/
def inp7 : String :=
  "BEGIN BULK\n" ++
  "\n" ++
  "$ Property 1 inlet\n" ++
  "PSHELL  1       \n" ++
  "GRID    1       0       0.0     0.0     0.0     \n" ++
  "GRID    2       0       1.0     0.0     0.0     \n" ++
  "GRID    3       0       0.0     1.0     0.0     \n" ++
  "CTRIA3  1       1       1       2       3       \n" ++
  "ENDDATA \n"

/-- Claim C1's positive scenario: the non-contiguous GRID IDs 1, 5, 100,
all referenced by the face card. -/
def inp1a : String :=
  "BEGIN BULK\n" ++
  "\n" ++
  "PSHELL  1       \n" ++
  "GRID    1       0       0.0     0.0     0.0     \n" ++
  "GRID    5       0       1.0     0.0     0.0     \n" ++
  "GRID    100     0       0.0     1.0     0.0     \n" ++
  "CTRIA3  1       1       1       5       100     \n" ++
  "ENDDATA \n"

/-- Claim C1's negative scenario: the face card references point ID 2,
which no GRID card declared (IDs 1, 5, 100 are declared, so index 2 is
within the `pointIDs` array and holds the `-1` sentinel). -/
def inp1b : String :=
  "BEGIN BULK\n" ++
  "\n" ++
  "PSHELL  1       \n" ++
  "GRID    1       0       0.0     0.0     0.0     \n" ++
  "GRID    5       0       1.0     0.0     0.0     \n" ++
  "GRID    100     0       0.0     1.0     0.0     \n" ++
  "CTRIA3  1       1       1       2       100     \n" ++
  "ENDDATA \n"

/-- Claim C10's scenario, truncated before any ENDDATA card. -/
def inpA : String :=
  "BEGIN BULK\n" ++
  "\n" ++
  "PSHELL  1       \n" ++
  "GRID    1       0       0.0     0.0     0.0     \n" ++
  "GRID    2       0       1.0     0.0     0.0     \n" ++
  "GRID    3       0       0.0     1.0     0.0     \n" ++
  "CTRIA3  1       1       1       2       3       \n"

/-- Claim C10's scenario with the terminating ENDDATA card. -/
def inpAE : String := inpA ++ "ENDDATA \n"

/-- Claim C3's counterexample map: face groups first inserted for property
130, then for property 5 (identity hash mod 128 puts 130 in bucket 2 and
5 in bucket 5, so `toc()` lists 130 before 5). -/
def p3 : FMap (List (List Int)) :=
  fmInsert (fmInsert fmEmpty 130 [[0, 1, 2]]) 5 [[3, 4, 5]]

/-- Names for claim C3's counterexample: both properties declared,
nameless. -/
def n3 : FMap String := fmInsert (fmInsert fmEmpty 5 emptyStr) 130 emptyStr

/-- Claim C3's counterexample cell-group map: cell groups first inserted
for property 130, then for property 5 (same bucket order as `p3`). -/
def z3 : FMap (List Int) := fmInsert (fmInsert fmEmpty 130 [0]) 5 [1]

/-- Claim C10's counterexample: the stream ends in the middle of a GRID
card (after the raw point ID), before any ENDDATA. -/
def inpT : String := "BEGIN BULK\n\nGRID    1"

/-- A loop state whose stream has stopped being good (witness for C10's
general conjunct). -/
def st10 : MState :=
  ⟨⟨[], 3, false⟩, ⟨emptyStr, 0⟩, kwGRID, [], [], [], fmEmpty, fmEmpty, fmEmpty⟩

/-- Witness key list for the cell-zone half of C3's theorem. -/
def lz3w : List (Int × List Int) := [(1, [0]), (3, [1])]

/-- Expected output names. -/
def nmInlet : String := "inlet"

def nmPatch0 : String := "patch_0"

def nmPatch1 : String := "patch_1"

def nmZone0 : String := "cellZone_0"

def nmZone1 : String := "cellZone_1"

/-- The index `i` at which `getColumn` writes the terminating NUL
(`buff[i] = '\0'`, src line 138) for a given size argument and stream: the
number of characters the read loop stored.  The C buffer is
`char buff[63]`, so any value above 62 is an out-of-bounds write. -/
def termWriteIndex (rawSize : Nat) (s : IFstream) : Nat :=
  (gcLoop (if rawSize = 0 then 63 else rawSize) [] s).1.length

/-- The signed index `i - 1` at which the free-format check
`buff[i-1] == '\n'` (src line 162) reads the buffer; in free format this
read is performed unconditionally, so any negative value is an
out-of-bounds read. -/
def freeTailReadIndex (rawSize : Nat) (s : IFstream) : Int :=
  (termWriteIndex rawSize s : Int) - 1

/-- 63 non-whitespace, non-delimiter characters: a legal free-format
field filling the whole buffer. -/
def aaa63 : List Char := List.replicate 63 'a'

/-- A free-format record whose first field is empty (its first character
is the `,` delimiter). -/
def commaStart : String := ",abc"

/-- Claim C4's counterexample stream: a SMALL-format field with interior
whitespace followed by further content on the same line. -/
def inpWs : String := "a b c d e f\n"

def strABCD : String := "abcd"

def strABCDEF : String := "abcdef"

def restEF : String := "e f\n"

/-- Claim C6's example fields and their repaired forms. -/
def e1s : String := "1.5-3"

def e2s : String := "1.5E-3"

def e3s : String := "-2.5+1"

def r1s : String := "1.5e-3"

def r3s : String := "-2.5e+1"

def eCs : String := "1-2+3"

def rCs : String := "1-2e+3"

def rCspec : String := "1e-2+3"

/-- Expected mesh outputs of the concrete runs. -/
def out1a : MeshOut :=
  ⟨[(0, 0, 0), (1, 0, 0), (0, 1, 0)], [], [[[0, 1, 2]]], [nmPatch0], []⟩

def out1b : MeshOut :=
  ⟨[(0, 0, 0), (1, 0, 0), (0, 1, 0)], [], [[[0, -1, 2]]], [nmPatch0], []⟩

def outA : MeshOut :=
  ⟨[(0, 0, 0), (1, 0, 0), (0, 1, 0)], [], [[[0, 1, 2]]], [nmPatch0], []⟩

def out7name : MeshOut :=
  ⟨[(0, 0, 0), (1, 0, 0), (0, 1, 0)], [], [[[0, 1, 2]]], [nmInlet], []⟩

def out7deflt : MeshOut :=
  ⟨[(0, 0, 0), (1, 0, 0), (0, 1, 0)], [], [[[0, 1, 2]]], [nmPatch0], []⟩

/-! ### Further concrete values used by witnesses -/

def flag7 : String := "ABCDEFG"

def c5restS : String := "1.0"

def prop8 : String := "2       \n"

def nl1 : String := "\n"

def st8 : MState :=
  ⟨⟨prop8.toList, 4, true⟩, ⟨emptyStr, 0⟩, kwPSHELL, [], [], [], fmEmpty, fmEmpty,
    fmInsert fmEmpty 2 emptyStr⟩

def st8b : MState :=
  ⟨⟨prop8.toList, 4, true⟩, ⟨emptyStr, 0⟩, kwPSOLID, [], [], [], fmEmpty, fmEmpty,
    fmEmpty⟩

def chainsOf {α : Type} (l : List (Int × α)) : List (List (Int × α)) :=
  (List.range 128).map (fun b => (l.filter (fun e => e.1 == ((b : Nat) : Int))).reverse)

def l3w : List (Int × List (List Int)) := [(1, [[0, 1, 2]]), (3, [[3, 4, 5]])]

def n3w : FMap String := fmFromList [(1, emptyStr), (3, emptyStr)]

set_option maxRecDepth 10000

set_option maxHeartbeats 2000000

/-- C1 (counterexample): the claim says a vertex reference to a point ID
never declared by a GRID card "always fails with a fatal
UnresolvedPointReference error".  On `inp1b` the CTRIA3 card references
point ID 2, which no GRID declared; the run *succeeds* (no error of any
kind) and the assembled face silently carries the sentinel `-1` as a
vertex index (src line 280 reads `pointIDs[getLabel(is)]` with no
check). -/
theorem c1_point_reference_counterexample :
    (runMain 200 FORMAT.SMALL true inp1b.toList).isOk = true ∧
    runMain 200 FORMAT.SMALL true inp1b.toList = .ok out1b := by
  decide

/-- C1 (amended): a vertex reference to a *declared* point ID — even from
the non-contiguous ID set 1, 5, 100 — resolves to the 0-based index of
that point in the assembled point sequence; a reference to an undeclared
point ID within the bounds of the `pointIDs` array does not fail but
silently resolves to the `-1` sentinel (out-of-bounds raw IDs are an
unchecked array access). -/
theorem c1_point_reference_resolution :
    runMain 200 FORMAT.SMALL true inp1a.toList = .ok out1a ∧
    runMain 200 FORMAT.SMALL true inp1b.toList = .ok out1b := by
  decide

/-- C3 (counterexample): the claim says groups are emitted in ascending
property-ID order.  With face groups (and likewise cell groups) for
properties 130 and 5 (inserted in that order), `toc()` lists bucket 2
(key 130) before bucket 5 (key 5), so both the patch resolver and the
cell-zone resolver emit property 130's group first — not ascending order
as the spec-side resolvers demand. -/
theorem c3_order_counterexample :
    resolvePatches p3 n3 = .ok ([[[0, 1, 2]], [[3, 4, 5]]], [nmPatch0, nmPatch1]) ∧
    specResolvePatches p3 n3 = .ok ([[[3, 4, 5]], [[0, 1, 2]]], [nmPatch0, nmPatch1]) ∧
    resolvePatches p3 n3 ≠ specResolvePatches p3 n3 ∧
    resolveZones z3 n3 = .ok [(nmZone0, [0]), (nmZone1, [1])] ∧
    specResolveZones z3 n3 = .ok [(nmZone0, [1]), (nmZone1, [0])] ∧
    resolveZones z3 n3 ≠ specResolveZones z3 n3 :=
  ⟨by decide, by decide, by decide, by decide, by decide, by decide⟩

/-- C4 (counterexample): the claim says embedded whitespace is skipped
"without counting toward the width budget", so up to `maxWidth`
non-whitespace characters are returned.  On `"a b c d e f\n"` with width
8 the source's `getColumn` consumes exactly 8 raw characters (whitespace
included in the `nRead` budget) and returns `"abcd"`, while the spec-side
reading returns `"abcdef"`. -/
theorem c4_width_budget_counterexample :
    getColumn FORMAT.SMALL 1 8 ⟨inpWs.toList, 1, true⟩ =
      (strABCD, ⟨restEF.toList, 1, true⟩) ∧
    specColumnFixed 8 inpWs.toList = strABCDEF ∧
    strABCD ≠ strABCDEF := by
  decide

/-- C6 (counterexample): the claim says the repair splices an `e` before
the *first* `+` or `-` found scanning from offset 1.  On `"1-2+3"` the
source searches for `+` first (src line 208) and only falls back to `-`,
so it splices before the `+` (`"1-2e+3"`), not before the earlier `-` as
the claim's scan would (`"1e-2+3"`). -/
theorem c6_exponent_scan_counterexample :
    fixExponent eCs = rCs ∧ specFixExponent eCs = rCspec ∧
    fixExponent eCs ≠ specFixExponent eCs := by
  decide

/-- C6 (amended): the repair splices an `e` before the first `+` found
from offset 1, or, when no `+` exists there, before the first `-` from
offset 1, provided the preceding character is not `e`/`E`; a field already
carrying an explicit `e`/`E` marker is left unchanged (no double
insertion) and re-repairing a repaired field changes nothing; the claimed
values hold exactly: `"1.5-3"` and `"1.5E-3"` parse to 3/2000 = 0.0015,
`"-2.5+1"` parses to -25. -/
theorem c6_exponent_repair_values :
    fixExponent e1s = r1s ∧ parseFloatQ (fixExponent e1s) = some (mkRat 3 2000) ∧
    fixExponent e2s = e2s ∧ parseFloatQ (fixExponent e2s) = some (mkRat 3 2000) ∧
    fixExponent e3s = r3s ∧ parseFloatQ (fixExponent e3s) = some (-25) ∧
    fixExponent (fixExponent e1s) = fixExponent e1s := by
  decide

/-- C7: with naming enabled, the PSHELL card directly preceded by the
comment `$ Property 1 inlet` yields the patch name `inlet` (the substring
after the comment's last space, attached because the recorded comment line
number equals the line on which the property-ID field is read); the same
input with naming disabled yields `patch_0`. -/
theorem c7_comment_naming :
    runMain 200 FORMAT.SMALL false inp7.toList = .ok out7name ∧
    runMain 200 FORMAT.SMALL true inp7.toList = .ok out7deflt := by
  decide

/-- C9: evaluation of the buffer-index dynamics at the failing inputs.
For a free-format field of 63 non-whitespace characters the NUL
terminator is written at index 63 of the 63-byte `buff` (valid indices
0..62) — an out-of-bounds write, contradicting the claimed `i ≤ 62`; for
an empty free-format field whose first character is the `,` delimiter,
the check `buff[i-1] == '\n'` reads index -1 — contradicting the claimed
`i ≥ 1`. -/
theorem c9_buffer_bounds_violation :
    termWriteIndex 0 ⟨aaa63, 1, true⟩ = 63 ∧
    62 < termWriteIndex 0 ⟨aaa63, 1, true⟩ ∧
    freeTailReadIndex 0 ⟨commaStart.toList, 1, true⟩ = -1 ∧
    freeTailReadIndex 0 ⟨commaStart.toList, 1, true⟩ < 0 := by
  decide

/-- C10 (counterexample): the claim says that for every input reaching
end of file before an ENDDATA card, the main loop terminates without
raising any error.  On `inpT` the stream ends in the middle of a GRID
card: the reads of the remaining fields fail, the float parse of the
resulting empty field is the fatal malformed-number error, and nothing is
handed to the mesh builder. -/
theorem c10_midcard_eof_counterexample :
    runMain 200 FORMAT.SMALL true inpT.toList = .error .malformedNumber := by
  decide

/-- C10 (amended): a missing ENDDATA marker is not fatal *by itself*: the
dispatcher's loop raises no error of its own at end of file — whenever the
stream has stopped being good the loop returns the assembled entities
unchanged — so an input truncated at a record boundary (`inpA`) is handed
to the mesh builder exactly as its ENDDATA-terminated counterpart
(`inpAE`); but end of file in the middle of a card is fatal: the pending
field reads fail and the numeric parse aborts with the malformed-number
error (`inpT`), handing nothing over. -/
theorem c10_missing_enddata_benign :
    (∀ (fmt : FORMAT) (fuel : Nat) (dn : Bool) (n : Nat) (st : MState),
      st.s.ok = false → mainLoop fmt fuel dn (n + 1) st = .ok st) ∧
    runMain 200 FORMAT.SMALL true inpA.toList = .ok outA ∧
    runMain 200 FORMAT.SMALL true inpAE.toList = .ok outA ∧
    runMain 200 FORMAT.SMALL true inpT.toList = .error .malformedNumber := by
  refine ⟨?_, by decide, by decide, by decide⟩
  intro fmt fuel dn n st h
  simp [mainLoop, h]

/-- Witness for C10's theorem: the loop hands back a concrete state whose
stream has gone bad. -/
theorem c10_missing_enddata_benign_witness :
    mainLoop FORMAT.SMALL 5 true (4 + 1) st10 = .ok st10 :=
  c10_missing_enddata_benign.1 FORMAT.SMALL 5 true 4 st10 (by decide)


/-! ### Step lemmas for the read loop -/

/-- One read-loop step on a plain content character. -/
theorem gcLoop_content (c : Char) (h1 : ¬ c = '\n') (h2 : ¬ c = ',')
    (h3 : cIsSpace c = false) (n : Nat) (acc rest : List Char) (ln : Int) :
    gcLoop (n + 1) acc ⟨c :: rest, ln, true⟩ = gcLoop n (acc ++ [c]) ⟨rest, ln, true⟩ := by
  simp [gcLoop, sGet, h1, h2, h3]

/-- One read-loop step on a skipped whitespace character (other than the
terminating newline and the comma delimiter). -/
theorem gcLoop_skip (c : Char) (h1 : ¬ c = '\n') (h2 : ¬ c = ',')
    (h3 : cIsSpace c = true) (n : Nat) (acc rest : List Char) (ln : Int) :
    gcLoop (n + 1) acc ⟨c :: rest, ln, true⟩ = gcLoop n acc ⟨rest, ln, true⟩ := by
  simp [gcLoop, sGet, h1, h2, h3]

/-- The read loop stores a newline and stops. -/
theorem gcLoop_newline (n : Nat) (acc rest : List Char) (ln : Int) :
    gcLoop (n + 1) acc ⟨'\n' :: rest, ln, true⟩ = (acc ++ ['\n'], ⟨rest, ln + 1, true⟩) := by
  simp [gcLoop, sGet]

/-- The read loop runs through a block of plain spaces, consuming budget
without storing anything. -/
theorem gcLoop_spaces :
    ∀ (pad : List Char), (∀ c ∈ pad, c = ' ') →
    ∀ (n : Nat), pad.length ≤ n → ∀ (acc rest : List Char) (ln : Int),
    gcLoop n acc ⟨pad ++ rest, ln, true⟩ = gcLoop (n - pad.length) acc ⟨rest, ln, true⟩ := by
  intro pad
  induction pad with
  | nil => intro _ n _ acc rest ln; simp
  | cons c pad ih =>
    intro hp n hn acc rest ln
    have hc : c = ' ' := hp c (by simp)
    subst hc
    have hn1 : pad.length + 1 ≤ n := by simpa using hn
    obtain ⟨m, rfl⟩ : ∃ m, n = m + 1 := ⟨n - 1, by omega⟩
    have h2 : pad.length ≤ m := by omega
    rw [List.cons_append, gcLoop_skip ' ' (by decide) (by decide) (by decide),
      ih (fun c h => hp c (by simp [h])) m h2]
    have hl : (' ' :: pad).length = pad.length + 1 := by simp
    rw [hl]
    congr 1
    omega


/-- Characterisation of the read loop on a stretch without newline or
comma: exactly `n` raw characters are consumed (whitespace included in the
budget) and the stored content is the non-whitespace among them. -/
theorem gcLoop_plain :
    ∀ (n : Nat) (chars : List Char),
    (∀ c ∈ chars.take n, ¬ c = '\n' ∧ ¬ c = ',') → n ≤ chars.length →
    ∀ (acc : List Char) (ln : Int),
    gcLoop n acc ⟨chars, ln, true⟩ =
      (acc ++ (chars.take n).filter (fun c => !(cIsSpace c)), ⟨chars.drop n, ln, true⟩) := by
  intro n
  induction n with
  | zero => intro chars _ _ acc ln; simp [gcLoop]
  | succ m ih =>
    intro chars h1 h2 acc ln
    match chars with
    | [] => simp at h2
    | c :: rest =>
      have hc := h1 c (by simp)
      have h1t : ∀ x ∈ rest.take m, ¬ x = '\n' ∧ ¬ x = ',' := by
        intro x hx
        refine h1 x ?_
        rw [List.take_succ_cons]
        exact List.mem_cons_of_mem _ hx
      have h2t : m ≤ rest.length := by simpa using h2
      by_cases hs : cIsSpace c
      · rw [gcLoop_skip c hc.1 hc.2 hs, ih rest h1t h2t acc ln]
        simp [List.take_cons, hs]
      · rw [gcLoop_content c hc.1 hc.2 (by simpa using hs), ih rest h1t h2t (acc ++ [c]) ln]
        simp [List.take_cons, hs]


/-- Unfolding of `getColumn` at positive fuel and nonzero size. -/
theorem getColumn_succ_pos (fmt : FORMAT) (f w : Nat) (hw : ¬ w = 0) (s : IFstream) :
    getColumn fmt (f + 1) w s =
      (let r := gcLoop w [] s
       if r.1.head? = some '+' ∧ r.1.getLast? = some '\n' then
         let p := sPeek r.2
         if p.1 = some '+' ∨ p.1 = some '*' then
           getColumn fmt f w
             (if fmt = FORMAT.FREE then skipToComma (p.2.chars.length + 1) p.2
              else sReadRaw 8 p.2)
         else gcTail fmt r.1 p.2
       else gcTail fmt r.1 r.2) := by
  simp only [getColumn, hw, if_false]


/-- C4 (amended): in the fixed (SMALL/LARGE) format modes, extracting a
field consumes exactly up to the field width in *raw* characters — embedded
whitespace and carriage-return bytes are consumed, count toward the width
budget, and are merely omitted from the returned string — so the returned
field consists of the non-whitespace characters among the (at most)
`maxWidth` raw characters consumed, and the following field starts exactly
`maxWidth` raw characters later. -/
theorem c4_fixed_raw_budget :
    ∀ (fmt : FORMAT), fmt = FORMAT.SMALL ∨ fmt = FORMAT.LARGE →
    ∀ (w : Nat), ¬ w = 0 →
    ∀ (chars : List Char), (∀ c ∈ chars.take w, ¬ c = '\n' ∧ ¬ c = ',') →
    w ≤ chars.length →
    ∀ (f : Nat) (ln : Int),
    getColumn fmt (f + 1) w ⟨chars, ln, true⟩ =
      (((chars.take w).filter (fun c => !(cIsSpace c))).asString,
        ⟨chars.drop w, ln, true⟩) := by
  intro fmt hf w hw chars h1 h2 f ln
  have hcol := gcLoop_plain w chars h1 h2 [] ln
  have hnl : ¬ ((chars.take w).filter (fun c => !(cIsSpace c))).getLast? = some '\n' := by
    intro h
    have hmem : '\n' ∈ (chars.take w).filter (fun c => !(cIsSpace c)) := by
      rcases List.getLast?_eq_some_iff.mp h with ⟨ys, hys⟩
      rw [hys]
      simp
    have hmem2 := (List.mem_filter.mp hmem).1
    exact (h1 _ hmem2).1 rfl
  rw [getColumn_succ_pos fmt f w hw, hcol]
  simp only [List.nil_append]
  rw [if_neg (fun hAB => hnl hAB.2)]
  rcases hf with rfl | rfl <;> simp [gcTail, hnl]


/-- Witness for C4's theorem at the concrete stream `"a b c d e f\n"`,
width 8. -/
theorem c4_fixed_raw_budget_witness :
    getColumn FORMAT.SMALL (0 + 1) 8 ⟨inpWs.toList, 1, true⟩ =
      (((inpWs.toList.take 8).filter (fun c => !(cIsSpace c))).asString,
        ⟨inpWs.toList.drop 8, 1, true⟩) :=
  c4_fixed_raw_budget FORMAT.SMALL (Or.inl rfl) 8 (by decide) inpWs.toList
    (by decide) (by decide) 0 1

/-- Unfolding of `getColumn` at positive fuel in free format (size
argument 0, effective width 63). -/
theorem getColumn_succ_free (f : Nat) (s : IFstream) :
    getColumn FORMAT.FREE (f + 1) 0 s =
      (let r := gcLoop 63 [] s
       if r.1.head? = some '+' ∧ r.1.getLast? = some '\n' then
         let p := sPeek r.2
         if p.1 = some '+' ∨ p.1 = some '*' then
           getColumn FORMAT.FREE f 0 (skipToComma (p.2.chars.length + 1) p.2)
         else gcTail FORMAT.FREE r.1 p.2
       else gcTail FORMAT.FREE r.1 r.2) := by
  simp [getColumn]

/-- The free-format flag skip runs through the non-comma prefix and
consumes the delimiter, leaving exactly the rest of the line. -/
theorem skipToComma_run :
    ∀ (junk : List Char), (∀ c ∈ junk, ¬ c = ',' ∧ ¬ c = '\n') →
    ∀ (n : Nat), junk.length + 1 ≤ n → ∀ (rest : List Char) (ln : Int),
    skipToComma n ⟨junk ++ ',' :: rest, ln, true⟩ = ⟨rest, ln, true⟩ := by
  intro junk
  induction junk with
  | nil =>
    intro _ n hn rest ln
    obtain ⟨m, rfl⟩ : ∃ m, n = m + 1 := ⟨n - 1, by omega⟩
    simp [skipToComma, sGet]
  | cons c junk ih =>
    intro hj n hn rest ln
    have hc := hj c (by simp)
    have hn' : junk.length + 1 ≤ n - 1 := by
      simp at hn
      omega
    obtain ⟨m, rfl⟩ : ∃ m, n = m + 1 := ⟨n - 1, by omega⟩
    rw [List.cons_append]
    show skipToComma (m + 1) ⟨c :: (junk ++ ',' :: rest), ln, true⟩ = ⟨rest, ln, true⟩
    simp only [skipToComma, sGet, if_true]
    simp [hc.1, hc.2]
    rw [ih (fun x hx => hj x (List.mem_cons_of_mem _ hx)) m (by omega) rest ln]

/-- C5: for every record whose continuation marker field (a `+`, in fixed
formats possibly space-padded, ending at a newline within the width
budget) is followed by a line beginning with `+` or `*`, `getColumn`
discards the first column of the continuation line entirely — the 8-byte
flag column in the fixed formats, one comma-delimited token in free
format — and returns exactly what it would return reading from after that
flag column: the flag field is never returned as data and callers cannot
observe the boundary.  The first conjunct is the fixed-format statement,
the second the free-format one. -/
theorem c5_continuation_transparent :
    (∀ (fmt : FORMAT), fmt = FORMAT.SMALL ∨ fmt = FORMAT.LARGE →
    ∀ (rawSize : Nat) (pad : List Char), (∀ c ∈ pad, c = ' ') →
    pad.length + 2 ≤ rawSize →
    ∀ (c0 : Char), c0 = '+' ∨ c0 = '*' →
    ∀ (flag : List Char), flag.length = 7 →
    ∀ (rest : List Char) (ln : Int) (f : Nat),
    getColumn fmt (f + 1) rawSize
        ⟨'+' :: (pad ++ '\n' :: (c0 :: (flag ++ rest))), ln, true⟩ =
      getColumn fmt f rawSize ⟨rest, ln + 1, true⟩) ∧
    (∀ (junk : List Char), (∀ c ∈ junk, ¬ c = ',' ∧ ¬ c = '\n') →
    ∀ (c0 : Char), c0 = '+' ∨ c0 = '*' →
    ∀ (rest : List Char) (ln : Int) (f : Nat),
    getColumn FORMAT.FREE (f + 1) 0
        ⟨'+' :: '\n' :: (c0 :: (junk ++ ',' :: rest)), ln, true⟩ =
      getColumn FORMAT.FREE f 0 ⟨rest, ln + 1, true⟩) := by
  refine ⟨?_, ?_⟩
  · intro fmt hf rawSize pad hp hlen c0 hc0 flag hfl rest ln f
    have h0 : ¬ rawSize = 0 := by omega
    obtain ⟨m, rfl⟩ : ∃ m, rawSize = m + 1 := ⟨rawSize - 1, by omega⟩
    have hm : pad.length ≤ m := by omega
    obtain ⟨k, hk⟩ : ∃ k, m - pad.length = k + 1 := ⟨m - pad.length - 1, by omega⟩
    have hloop : gcLoop (m + 1) []
        ⟨'+' :: (pad ++ '\n' :: (c0 :: (flag ++ rest))), ln, true⟩
        = (['+', '\n'], ⟨c0 :: (flag ++ rest), ln + 1, true⟩) := by
      rw [gcLoop_content '+' (by decide) (by decide) (by decide),
        gcLoop_spaces pad hp m hm, hk, gcLoop_newline]
      simp
    have hlen8 : (c0 :: flag).length = 8 := by simp [hfl]
    have hdl := List.drop_left (c0 :: flag) rest
    rw [hlen8] at hdl
    simp only [List.cons_append] at hdl
    have hge : 8 ≤ (c0 :: (flag ++ rest)).length := by
      simp only [List.length_cons, List.length_append, hfl]
      omega
    have hraw : sReadRaw 8 ⟨c0 :: (flag ++ rest), ln + 1, true⟩ = ⟨rest, ln + 1, true⟩ := by
      simp [sReadRaw, hge, hdl, hfl]
    rcases hf with rfl | rfl <;> rcases hc0 with rfl | rfl <;>
      (rw [getColumn_succ_pos _ f (m + 1) h0]; simp [hloop, sPeek, hraw])
  · intro junk hj c0 hc0 rest ln f
    have hc0c : ¬ c0 = ',' ∧ ¬ c0 = '\n' := by
      rcases hc0 with rfl | rfl <;> exact ⟨by decide, by decide⟩
    have hloop : gcLoop 63 [] ⟨'+' :: '\n' :: (c0 :: (junk ++ ',' :: rest)), ln, true⟩
        = (['+', '\n'], ⟨c0 :: (junk ++ ',' :: rest), ln + 1, true⟩) := by
      rw [gcLoop_content '+' (by decide) (by decide) (by decide), gcLoop_newline]
      simp
    have hskip : skipToComma ((c0 :: (junk ++ ',' :: rest)).length + 1)
        ⟨c0 :: (junk ++ ',' :: rest), ln + 1, true⟩ = ⟨rest, ln + 1, true⟩ := by
      have hcons : c0 :: (junk ++ ',' :: rest) = (c0 :: junk) ++ ',' :: rest := rfl
      rw [hcons]
      refine skipToComma_run (c0 :: junk) ?_ _ (by simp) rest (ln + 1)
      intro c hcm
      rcases List.mem_cons.mp hcm with rfl | hcm2
      · exact hc0c
      · exact hj c hcm2
    simp only [List.length_cons, List.length_append] at hskip
    rcases hc0 with rfl | rfl <;>
      (rw [getColumn_succ_free]; simp [hloop, sPeek, hskip])

/-- Witness for C5's theorem: a small-format continuation with flag column
`+ABCDEFG` is skipped entirely. -/
theorem c5_continuation_transparent_witness :
    getColumn FORMAT.SMALL (3 + 1) 8
        ⟨'+' :: ([] ++ '\n' :: ('+' :: (flag7.toList ++ c5restS.toList))), 1, true⟩ =
      getColumn FORMAT.SMALL 3 8 ⟨c5restS.toList, 1 + 1, true⟩ :=
  c5_continuation_transparent.1 FORMAT.SMALL (Or.inl rfl) 8 [] (by decide) (by decide)
    '+' (Or.inl rfl) flag7.toList (by decide) c5restS.toList 1 3


/-- Prepending an element to one bucket chain prepends it to the iteration
list up to permutation. -/
theorem catLists_set_cons {α : Type} (x : α) :
    ∀ (ls : List (List α)) (b : Nat), b < ls.length →
    (catLists (ls.set b (x :: ls.getD b []))).Perm (x :: catLists ls) := by
  intro ls
  induction ls with
  | nil => intro b hb; simp at hb
  | cons l ls ih =>
    intro b hb
    cases b with
    | zero =>
      simp [catLists]
    | succ b =>
      have hb' : b < ls.length := by simpa using hb
      have h2 : catLists ((l :: ls).set (b + 1) (x :: (l :: ls).getD (b + 1) []))
          = l ++ catLists (ls.set b (x :: ls.getD b [])) := by
        simp [catLists, List.getD_cons_succ]
      rw [h2]
      refine (List.Perm.append_left l (ih b hb')).trans ?_
      have h3 : catLists (l :: ls) = l ++ catLists ls := rfl
      rw [h3]
      exact List.perm_middle

/-- Inserting a fresh key (no resize pending) records it exactly once in
the table of contents. -/
theorem count_toc_insert {α : Type} (m : FMap α) (k : Int) (v : α)
    (hnf : fmFound m k = false)
    (hb : bucketOf m.cap k < m.chains.length)
    (hnr : 10 * (m.sz + 1) ≤ 8 * m.cap)
    (hnm : k ∉ fmToc m) :
    (fmToc (fmInsert m k v)).count k = 1 := by
  have hres : ¬ (10 * (m.sz + 1) > 8 * m.cap) := by omega
  have hperm := (catLists_set_cons (k, v) m.chains (bucketOf m.cap k) hb).map Prod.fst
  simp only [List.map_cons] at hperm
  simp only [fmInsert, hnf, Bool.false_eq_true, if_false, hres]
  simp only [fmToc, fmIterList]
  rw [hperm.count_eq k, List.count_cons_self]
  have h0 : (List.map Prod.fst (catLists m.chains)).count k = 0 :=
    List.count_eq_zero.mpr hnm
  omega


/-- C8: PSOLID and PSHELL are handled by the same branch over the single
`propNames` map (one shared ID namespace); re-declaring an already-present
property ID is the fatal duplicate-property error, and a fresh declaration
records the ID exactly once in the map. -/
theorem c8_duplicate_property :
    (∀ (fmt : FORMAT) (fuel : Nat) (dn : Bool) (st : MState) (propI : Int)
        (s1 : IFstream),
      getLabel fmt fuel st.s = .ok (propI, s1) →
      fmFound st.propNames propI = true →
      handleProperty fmt fuel dn st = .error (.duplicateProperty propI)) ∧
    (∀ (fmt : FORMAT) (fuel : Nat) (dn : Bool) (st : MState) (propI : Int)
        (s1 : IFstream),
      getLabel fmt fuel st.s = .ok (propI, s1) →
      fmFound st.propNames propI = false →
      bucketOf st.propNames.cap propI < st.propNames.chains.length →
      10 * (st.propNames.sz + 1) ≤ 8 * st.propNames.cap →
      propI ∉ fmToc st.propNames →
      Except.map (fun st' => (fmToc st'.propNames).count propI)
        (handleProperty fmt fuel dn st) = .ok 1) := by
  constructor
  · intro fmt fuel dn st propI s1 hlab hfound
    simp [handleProperty, hlab, hfound]
  · intro fmt fuel dn st propI s1 hlab hnf hb hnr hnm
    simp only [handleProperty, hlab, hnf, Bool.false_eq_true, if_false]
    simp [Except.map, count_toc_insert st.propNames propI _ hnf hb hnr hnm]


/-- Witness for C8's theorem: property ID 2 re-declared (fatal) resp.
freshly declared (recorded once). -/
theorem c8_duplicate_property_witness :
    handleProperty FORMAT.SMALL 50 true st8 = .error (.duplicateProperty 2) ∧
    Except.map (fun st' => (fmToc st'.propNames).count 2)
      (handleProperty FORMAT.SMALL 50 true st8b) = .ok 1 :=
  ⟨c8_duplicate_property.1 FORMAT.SMALL 50 true st8 2 ⟨nl1.toList, 4, true⟩
      (by decide) (by decide),
    c8_duplicate_property.2 FORMAT.SMALL 50 true st8b 2 ⟨nl1.toList, 4, true⟩
      (by decide) (by decide) (by decide) (by decide) (by decide)⟩


/-- `catLists` distributes over append. -/
theorem catLists_append {α : Type} :
    ∀ (xs ys : List (List α)), catLists (xs ++ ys) = catLists xs ++ catLists ys := by
  intro xs ys
  induction xs with
  | nil => rfl
  | cons x xs ih => simp [catLists, ih]

/-- Membership in a concatenation of lists. -/
theorem mem_catLists {α : Type} (a : α) :
    ∀ (ls : List (List α)), a ∈ catLists ls ↔ ∃ l, l ∈ ls ∧ a ∈ l := by
  intro ls
  induction ls with
  | nil => simp [catLists]
  | cons l ls ih => simp [catLists, ih]

/-- A list all of whose elements are equal is ≤-pairwise. -/
theorem pairwise_le_of_all_eq (v : Int) :
    ∀ (l : List Int), (∀ x ∈ l, x = v) → l.Pairwise (· ≤ ·) := by
  intro l
  induction l with
  | nil => intro _; exact List.Pairwise.nil
  | cons a t ih =>
    intro h
    refine List.Pairwise.cons ?_ (ih fun x hx => h x (by simp [hx]))
    intro b hb
    rw [h a (by simp), h b (by simp [hb])]

/-- Concatenating one more bucket of a bucket family. -/
theorem catLists_map_range_succ {α : Type} (g : Nat → List α) (n : Nat) :
    catLists ((List.range (n + 1)).map g) = catLists ((List.range n).map g) ++ g n := by
  rw [List.range_succ, List.map_append, catLists_append]
  simp [catLists]

/-- The keys of a bucket family whose bucket `b` holds only key `b` are
≤-sorted when concatenated in bucket order. -/
theorem pw_aux {α : Type} (g : Nat → List (Int × α)) :
    ∀ (n : Nat), (∀ b, b < n → ∀ e ∈ g b, e.1 = (b : Int)) →
    List.Pairwise (· ≤ ·) ((catLists ((List.range n).map g)).map Prod.fst) := by
  intro n
  induction n with
  | zero => simp [catLists]
  | succ n ih =>
    intro hg
    rw [catLists_map_range_succ, List.map_append]
    refine List.pairwise_append.mpr ⟨ih (fun b hb => hg b (by omega)), ?_, ?_⟩
    · refine pairwise_le_of_all_eq ((n : Int)) _ ?_
      intro y hy
      rcases List.mem_map.mp hy with ⟨e, he, rfl⟩
      exact hg n (by omega) e he
    · intro a ha b hb
      rcases List.mem_map.mp hb with ⟨e, he, rfl⟩
      rw [hg n (by omega) e he]
      rcases List.mem_map.mp ha with ⟨e2, he2, rfl⟩
      rcases (mem_catLists e2 _).mp he2 with ⟨blk, hblk, he2b⟩
      rcases List.mem_map.mp hblk with ⟨b2, hb2, rfl⟩
      have hb2n : b2 < n := List.mem_range.mp hb2
      rw [hg b2 (by omega) e2 he2b]
      exact_mod_cast Nat.le_of_lt hb2n

/-- A ≤-sorted key list is a fixed point of the ascending sort. -/
theorem sortKeysAsc_sorted :
    ∀ (l : List Int), l.Pairwise (· ≤ ·) → sortKeysAsc l = l := by
  intro l
  induction l with
  | nil => intro _; rfl
  | cons a t ih =>
    intro h
    have ht := ih h.of_cons
    show sortedInsert a (sortKeysAsc t) = a :: t
    rw [ht]
    cases t with
    | nil => rfl
    | cons b t2 =>
      have hab : a ≤ b := (List.pairwise_cons.mp h).1 b (by simp)
      simp [sortedInsert, hab]



/-- The bucket array of `chainsOf` read at an in-range index. -/
theorem chainsOf_getElem {α : Type} (l : List (Int × α)) (j : Nat) (hj : j < 128) :
    (chainsOf l)[j]? = some ((l.filter (fun e => e.1 == ((j : Nat) : Int))).reverse) := by
  rw [chainsOf, List.getElem?_map, List.getElem?_range hj]
  rfl

/-- The bucket array of `chainsOf` read out of range. -/
theorem chainsOf_getElem_none {α : Type} (l : List (Int × α)) (j : Nat) (hj : ¬ j < 128) :
    (chainsOf l)[j]? = none := by
  rw [chainsOf, List.getElem?_map,
    List.getElem?_eq_none (by simpa using Nat.le_of_not_lt hj)]
  rfl

/-- Length of the bucket array. -/
theorem chainsOf_length {α : Type} (l : List (Int × α)) : (chainsOf l).length = 128 := by
  simp [chainsOf]

/-- Structure of a map built by inserting distinct keys in `[0, 128)`
(at most 102 of them, so the table never resizes): capacity 128, each
bucket `b` holding exactly the entries with key `b`, newest first. -/
theorem fmFromList_eq {α : Type} :
    ∀ (l : List (Int × α)),
    (∀ e ∈ l, 0 ≤ e.1 ∧ e.1 < 128) → (l.map Prod.fst).Nodup → l.length ≤ 102 →
    fmFromList l = ⟨128, chainsOf l, l.length⟩ := by
  intro l
  induction l using List.reverseRecOn with
  | nil =>
    intro _ _ _
    show fmEmpty = FMap.mk 128 (chainsOf ([] : List (Int × α))) 0
    have hc : chainsOf ([] : List (Int × α)) = List.replicate 128 [] := by
      rw [List.eq_replicate_iff]
      refine ⟨by simp [chainsOf], ?_⟩
      intro b hb
      rw [chainsOf] at hb
      rcases List.mem_map.mp hb with ⟨n, _, rfl⟩
      simp
    rw [fmEmpty, hc]
  | append_singleton l x ih =>
    intro h1 h2 h3
    have hl1 : ∀ e ∈ l, 0 ≤ e.1 ∧ e.1 < 128 := fun e he => h1 e (by simp [he])
    have hl2 : (l.map Prod.fst).Nodup := by
      rw [List.map_append] at h2
      exact h2.of_append_left
    have hx1 : 0 ≤ x.1 ∧ x.1 < 128 := h1 x (by simp)
    have hxl : x.1 ∉ l.map Prod.fst := by
      rw [List.map_append] at h2
      have hd := (List.nodup_append.mp h2).2.2
      intro hmem
      exact hd hmem (by simp)
    have h3a : l.length + 1 ≤ 102 := by simpa using h3
    have h3' : l.length ≤ 102 := by omega
    have hstep : fmFromList (l ++ [x]) = fmInsert (fmFromList l) x.1 x.2 := by
      simp [fmFromList, List.foldl_append]
    rw [hstep, ih hl1 hl2 h3']
    have hbn : x.1.toNat < 128 := by omega
    have hbuck : bucketOf 128 x.1 = x.1.toNat := by
      unfold bucketOf labelHashU
      rw [if_pos hx1.1]
      exact Nat.mod_eq_of_lt hbn
    have hcast : ((x.1.toNat : Nat) : Int) = x.1 := Int.toNat_of_nonneg hx1.1
    have hfilx : l.filter (fun e => e.1 == x.1) = [] := by
      rw [List.filter_eq_nil_iff]
      intro e he
      simp only [beq_iff_eq]
      intro hek
      exact hxl (hek ▸ List.mem_map_of_mem Prod.fst he)
    have hchain : (chainsOf l).getD x.1.toNat [] =
        (l.filter (fun e => e.1 == x.1)).reverse := by
      rw [List.getD_eq_getElem?_getD, chainsOf_getElem l x.1.toNat hbn]
      simp [hcast]
    have hfind : fmFind (FMap.mk 128 (chainsOf l) l.length) x.1 = none := by
      unfold fmFind chainAt
      show ((((chainsOf l).getD (bucketOf 128 x.1) []).find?
        (fun e => e.1 == x.1)).map (fun e => e.2)) = none
      rw [hbuck, hchain, hfilx]
      rfl
    have hfound : fmFound (FMap.mk 128 (chainsOf l) l.length) x.1 = false := by
      unfold fmFound
      rw [hfind]
      rfl
    have hnores : ¬ (10 * (l.length + 1) > 8 * 128) := by omega
    have hchains : (chainsOf l).set x.1.toNat [(x.1, x.2)] = chainsOf (l ++ [x]) := by
      refine List.ext_getElem? ?_
      intro i
      by_cases hi : i < 128
      · rw [List.getElem?_set]
        by_cases hib : x.1.toNat = i
        · rw [if_pos hib, if_pos (by rw [chainsOf_length]; omega),
            chainsOf_getElem (l ++ [x]) i hi]
          subst hib
          rw [List.filter_append]
          have hxt : (([x] : List (Int × α)).filter
              (fun e => e.1 == ((x.1.toNat : Nat) : Int))) = [x] := by
            simp [hcast]
          rw [hxt]
          have hfx : l.filter (fun e => e.1 == ((x.1.toNat : Nat) : Int)) = [] := by
            rw [hcast] at *
            exact hfilx
          rw [hfx]
          simp
        · rw [if_neg hib, chainsOf_getElem l i hi, chainsOf_getElem (l ++ [x]) i hi]
          have hne : (x.1 == ((i : Nat) : Int)) = false := by
            simp only [beq_eq_false_iff_ne, ne_eq]
            intro hxe
            exact hib (by omega)
          rw [List.filter_append]
          simp [hne]
      · rw [List.getElem?_set]
        rw [if_neg (by omega), chainsOf_getElem_none l i hi,
          chainsOf_getElem_none (l ++ [x]) i hi]
    simp only [fmInsert, hfound, Bool.false_eq_true, if_false]
    simp only [hbuck, hchain, hfilx, List.reverse_nil, hnores, if_false]
    simp only [FMap.mk.injEq]
    exact ⟨trivial, hchains, by simp⟩


/-- The source's resolution fold and the spec-side fold have identical
bodies: they agree on every iteration list. -/
theorem resolveGo_eq_spec (patches : FMap (List (List Int))) (propNames : FMap String) :
    ∀ (l : List Int) (acc : List (List (List Int)) × List String × Nat),
    resolveGo patches propNames l acc = specResolveGo patches propNames l acc := by
  intro l
  induction l with
  | nil => intro acc; rfl
  | cons a t ih =>
    intro acc
    simp only [resolveGo, specResolveGo]
    cases fmFind propNames a with
    | none => rfl
    | some nm =>
      cases fmFind patches a with
      | none => rfl
      | some faces =>
        by_cases hf0 : faces.length ≠ 0
        · by_cases hnm : nm = emptyStr
          · simp [hf0, hnm, ih]
          · simp [hf0, hnm, ih]
        · simp [hf0, ih]

/-- The source's cell-zone resolution fold and the spec-side fold have
identical bodies: they agree on every iteration list. -/
theorem resolveZonesGo_eq_spec (cellPropIDs : FMap (List Int)) (propNames : FMap String) :
    ∀ (l : List Int) (acc : List (String × List Int) × Nat),
    resolveZonesGo cellPropIDs propNames l acc =
      specResolveZonesGo cellPropIDs propNames l acc := by
  intro l
  induction l with
  | nil => intro acc; rfl
  | cons a t ih =>
    intro acc
    simp only [resolveZonesGo, specResolveZonesGo]
    cases fmFind propNames a with
    | none => rfl
    | some nm =>
      cases fmFind cellPropIDs a with
      | none => rfl
      | some cellIdxs =>
        by_cases hnm : nm = emptyStr
        · simp [hnm, ih]
        · simp [hnm, ih]

/-- C3 (amended): the Group Resolver emits patch groups *and cell-zone
groups* in the property Map's hash-iteration order (buckets in ascending
index, which for a table built from distinct property IDs in `[0, 128)`
with at most 102 entries is exactly *ascending property-ID order*), skips
property IDs whose face group is empty (cell groups are never empty-
skipped, and none is empty in a real scan), and names each retained group
with the tracked name when non-empty, else `patch_` / `cellZone_` plus a
zero-based counter incremented only over the groups needing a synthesized
name: under those ID bounds both resolvers coincide with the spec-side
resolvers that iterate in ascending property-ID order. -/
theorem c3_group_resolution_order :
    (∀ (l : List (Int × List (List Int))) (propNames : FMap String),
      (∀ e ∈ l, 0 ≤ e.1 ∧ e.1 < 128) → (l.map Prod.fst).Nodup → l.length ≤ 102 →
      resolvePatches (fmFromList l) propNames =
        specResolvePatches (fmFromList l) propNames) ∧
    (∀ (l : List (Int × List Int)) (propNames : FMap String),
      (∀ e ∈ l, 0 ≤ e.1 ∧ e.1 < 128) → (l.map Prod.fst).Nodup → l.length ≤ 102 →
      resolveZones (fmFromList l) propNames =
        specResolveZones (fmFromList l) propNames) := by
  constructor
  · intro l propNames h1 h2 h3
    have hEq := fmFromList_eq l h1 h2 h3
    have hpw : List.Pairwise (· ≤ ·) (fmToc (fmFromList l)) := by
      rw [hEq]
      show List.Pairwise (· ≤ ·)
        ((catLists (chainsOf l)).map Prod.fst)
      refine pw_aux _ 128 ?_
      intro b hb e he
      rcases List.mem_reverse.mp he with hmem
      rcases List.mem_filter.mp hmem with ⟨_, hbeq⟩
      exact beq_iff_eq.mp hbeq
    have hsort : sortKeysAsc (fmToc (fmFromList l)) = fmToc (fmFromList l) :=
      sortKeysAsc_sorted _ hpw
    unfold resolvePatches specResolvePatches
    rw [hsort, resolveGo_eq_spec]
  · intro l propNames h1 h2 h3
    have hEq := fmFromList_eq l h1 h2 h3
    have hpw : List.Pairwise (· ≤ ·) (fmToc (fmFromList l)) := by
      rw [hEq]
      show List.Pairwise (· ≤ ·)
        ((catLists (chainsOf l)).map Prod.fst)
      refine pw_aux _ 128 ?_
      intro b hb e he
      rcases List.mem_reverse.mp he with hmem
      rcases List.mem_filter.mp hmem with ⟨_, hbeq⟩
      exact beq_iff_eq.mp hbeq
    have hsort : sortKeysAsc (fmToc (fmFromList l)) = fmToc (fmFromList l) :=
      sortKeysAsc_sorted _ hpw
    by_cases hsz : (fmFromList l).sz = 0
    · have hl0 : l.length = 0 := by
        rw [hEq] at hsz
        simpa using hsz
      have hnil : l = [] := List.length_eq_zero.mp hl0
      subst hnil
      have htoc : fmToc (fmFromList ([] : List (Int × List Int))) = [] := by decide
      have hsz0 : (fmFromList ([] : List (Int × List Int))).sz = 0 := by decide
      simp [resolveZones, specResolveZones, hsz0, htoc, sortKeysAsc,
        specResolveZonesGo]
    · unfold resolveZones specResolveZones
      rw [if_neg hsz, hsort, resolveZonesGo_eq_spec]

/-- Witness for C3's theorem at two distinct small property IDs, for both
the patch and the cell-zone resolvers. -/
theorem c3_group_resolution_order_witness :
    resolvePatches (fmFromList l3w) n3w = specResolvePatches (fmFromList l3w) n3w ∧
    resolveZones (fmFromList lz3w) n3w = specResolveZones (fmFromList lz3w) n3w :=
  ⟨c3_group_resolution_order.1 l3w n3w (by decide) (by decide) (by decide),
    c3_group_resolution_order.2 lz3w n3w (by decide) (by decide) (by decide)⟩

end NasToFoam
